import Mathlib

/-!
Verification of the partial-axis coordinate decorator (`src/coord/partial_axis.rs`).

The file shallowly embeds the Rust source:

* the `Ranged` trait becomes a structure of functions (`map`, `key_points`,
  `range`); pixels (`i32`) become `ℤ` — no `i32` arithmetic other than
  `min`/`max` and subtraction occurs in the embedded code, so overflow is
  not reachable in the modelled fragment;
* `PartialAxis<R>` becomes a structure holding an inner `Ranged` and the
  display interval, with the four trait methods as definitions that mirror
  the `impl Ranged for PartialAxis` block line by line;
* `DiscreteRanged` and its forwarding impl are embedded the same way;
* `f64` becomes the type `F`: an exact rational together with the IEEE-754
  special values `+inf`, `-inf` and `NaN`, with the special-value
  propagation rules of IEEE-754 arithmetic.  Finite arithmetic is exact
  (no rounding, no overflow, a single zero); every concrete input used
  below is exactly representable in binary64 and every operation on it is
  exact there, so on those inputs the model agrees with `f64` bit for bit.
  A second family of operations (`F.addO`, `F.subO`, `F.mulO`, `F.divO`,
  and the `_ovf` pipeline built from them) additionally models binary64
  overflow of finite results to a signed infinity — the one rounding
  effect a universally quantified statement about `make_partial_axis`
  can depend on;
* the fallible `num_traits` casts (an external collaborator whose contract
  the spec states) become an explicit `NumCast` record of two `Option`
  valued functions.
-/

namespace Plotters

/-- The coordinate capability (the `Ranged` trait): value-to-pixel map,
tick candidates and the full logical domain.  `axis_pixel_range` is the
one method `PartialAxis` overrides, so it is not a field of the inner
capability record. -/
structure Ranged (V : Type) where
  map : V → ℤ × ℤ → ℤ
  key_points : ℕ → List V
  range : V × V

/-- The decorator `PartialAxis<R>(R, Range<R::ValueType>)`: an inner
coordinate and a stored display interval. -/
structure PartialAxis (V : Type) where
  inner : Ranged V
  display : V × V

/-- `fn map` of `impl Ranged for PartialAxis`: `self.0.map(value, limit)`. -/
def PartialAxis.map {V : Type} (p : PartialAxis V) (value : V) (limit : ℤ × ℤ) : ℤ :=
  p.inner.map value limit

/-- `fn key_points` of `impl Ranged for PartialAxis`:
`self.0.key_points(max_points)`. -/
def PartialAxis.key_points {V : Type} (p : PartialAxis V) (max_points : ℕ) : List V :=
  p.inner.key_points max_points

/-- `fn range` of `impl Ranged for PartialAxis`: `self.0.range()`. -/
def PartialAxis.range {V : Type} (p : PartialAxis V) : V × V :=
  p.inner.range

/-- `fn axis_pixel_range` of `impl Ranged for PartialAxis`:
map both display endpoints through `self.map` (which forwards to the inner
coordinate) and normalise with `min`/`max`. -/
def PartialAxis.axis_pixel_range {V : Type} (p : PartialAxis V) (limit : ℤ × ℤ) : ℤ × ℤ :=
  let left := p.map p.display.1 limit
  let right := p.map p.display.2 limit
  (min left right, max left right)

/-- The discrete coordinate capability (the `DiscreteRanged` trait),
extending the base capability with `size`, `index_of` and `from_index`. -/
structure DiscreteRanged (V : Type) where
  toRanged : Ranged V
  size : ℕ
  index_of : V → Option ℕ
  from_index : ℕ → Option V

/-- `PartialAxis<R>` for a discrete inner coordinate `R : DiscreteRanged`. -/
structure PartialAxisDiscrete (V : Type) where
  inner : DiscreteRanged V
  display : V × V

/-- `fn size` of `impl DiscreteRanged for PartialAxis`: `self.0.size()`. -/
def PartialAxisDiscrete.size {V : Type} (p : PartialAxisDiscrete V) : ℕ :=
  p.inner.size

/-- `fn index_of` of `impl DiscreteRanged for PartialAxis`:
`self.0.index_of(value)`. -/
def PartialAxisDiscrete.index_of {V : Type} (p : PartialAxisDiscrete V) (value : V) :
    Option ℕ :=
  p.inner.index_of value

/-- `fn from_index` of `impl DiscreteRanged for PartialAxis`:
`self.0.from_index(index)`. -/
def PartialAxisDiscrete.from_index {V : Type} (p : PartialAxisDiscrete V) (index : ℕ) :
    Option V :=
  p.inner.from_index index

/-- The decorated coordinate, repackaged as a `DiscreteRanged` of its own:
this is what `impl DiscreteRanged for PartialAxis<R>` exposes to callers
(every method forwarded to the inner coordinate). -/
def PartialAxisDiscrete.toDiscreteRanged {V : Type} (p : PartialAxisDiscrete V) :
    DiscreteRanged V :=
  { toRanged := p.inner.toRanged
    size := p.size
    index_of := p.index_of
    from_index := p.from_index }

/-- The discrete round-trip contract of the spec:
`index_of(from_index(i)) == i` for every index in `[0, size)`, and
`from_index(index_of(v)) == v` for every member value. -/
def DiscreteRanged.roundTrip {V : Type} (d : DiscreteRanged V) : Prop :=
  (∀ i, i < d.size → (d.from_index i).bind d.index_of = some i) ∧
  (∀ v i, d.index_of v = some i → d.from_index i = some v)

/-- A model of `f64` for the arithmetic of `make_partial_axis`: an exact
rational (`fin`) or one of the IEEE-754 special values.  Finite arithmetic
is exact and there is a single zero, acting as IEEE `+0.0`; every special
value is produced and propagated by the IEEE-754 rules. -/
inductive F : Type where
  | fin (q : ℚ) : F
  | inf : F
  | ninf : F
  | nan : F
deriving DecidableEq

/-- IEEE-754 addition on the model (finite part exact). -/
def F.add : F → F → F
  | nan, _ => nan
  | _, nan => nan
  | fin a, fin b => fin (a + b)
  | fin _, inf => inf
  | inf, fin _ => inf
  | inf, inf => inf
  | inf, ninf => nan
  | ninf, inf => nan
  | fin _, ninf => ninf
  | ninf, fin _ => ninf
  | ninf, ninf => ninf

/-- IEEE-754 subtraction on the model (finite part exact). -/
def F.sub : F → F → F
  | nan, _ => nan
  | _, nan => nan
  | fin a, fin b => fin (a - b)
  | fin _, inf => ninf
  | inf, fin _ => inf
  | inf, inf => nan
  | inf, ninf => inf
  | fin _, ninf => inf
  | ninf, fin _ => ninf
  | ninf, inf => ninf
  | ninf, ninf => nan

/-- IEEE-754 multiplication on the model (finite part exact;
`inf * 0 = nan`). -/
def F.mul : F → F → F
  | nan, _ => nan
  | _, nan => nan
  | fin a, fin b => fin (a * b)
  | fin a, inf => if a = 0 then nan else if 0 < a then inf else ninf
  | inf, fin b => if b = 0 then nan else if 0 < b then inf else ninf
  | inf, inf => inf
  | inf, ninf => ninf
  | ninf, inf => ninf
  | fin a, ninf => if a = 0 then nan else if 0 < a then ninf else inf
  | ninf, fin b => if b = 0 then nan else if 0 < b then ninf else inf
  | ninf, ninf => inf

/-- IEEE-754 division on the model (finite part exact; a nonzero finite
value divided by zero gives a signed infinity, `0/0 = nan`; the model's
single zero divisor behaves as `+0.0`). -/
def F.div : F → F → F
  | nan, _ => nan
  | _, nan => nan
  | fin a, fin b =>
      if b = 0 then (if a = 0 then nan else if 0 < a then inf else ninf)
      else fin (a / b)
  | fin _, inf => fin 0
  | fin _, ninf => fin 0
  | inf, fin b => if 0 ≤ b then inf else ninf
  | ninf, fin b => if 0 ≤ b then ninf else inf
  | inf, inf => nan
  | inf, ninf => nan
  | ninf, inf => nan
  | ninf, ninf => nan

/-- The `num_traits::NumCast` collaborator for a value type `T`
(spec section 6): a fallible cast to `f64` and a fallible cast back. -/
structure NumCast (T : Type) where
  toF : T → Option F
  ofF : F → Option T

/-- The cast pair for `T = f64` itself: `num_traits::cast::<f64, f64>`
succeeds on every value, NaN and the infinities included. -/
def castF64 : NumCast F where
  toF := fun x => some x
  ofF := fun x => some x

/-- Modelled from the spec: the numeric-cast collaborator for a bounded
integer value type such as `i32` — the cast to `f64` is exact (every `i32`
is representable), and the cast back "fails/returns nothing on an
unrepresentable value": any special value or any rational outside the
`i32` range.  In-range rationals truncate toward zero. -/
def castI32 : NumCast ℤ where
  toF := fun z => some (F.fin z)
  ofF := fun x =>
    match x with
    | F.fin q =>
        if -(2 ^ 31) ≤ q ∧ q ≤ 2 ^ 31 - 1 then
          some (if 0 ≤ q then ⌊q⌋ else ⌈q⌉)
        else none
    | _ => none

/-- `let full_range_size = (right - left) / (part.end - part.start);` -/
def full_range_size (left right ps pe : F) : F :=
  (right.sub left).div (pe.sub ps)

/-- `let full_left = left - full_range_size * part.start;` -/
def full_left (left right ps pe : F) : F :=
  left.sub ((full_range_size left right ps pe).mul ps)

/-- `let full_right = right + full_range_size * (1.0 - part.end);` -/
def full_right (left right ps pe : F) : F :=
  right.add ((full_range_size left right ps pe).mul ((F.fin 1).sub pe))

/-- What `make_partial_axis` builds on success:
`PartialAxis(full_range.into(), axis_range.into().range())`.  `full_range`
is the interval the inner coordinate is built over; the display interval is
the original `axis_range` (the coordinate built from a plain interval
reports that interval back as its `range()`, per spec section 4.1). -/
structure PartialAxisSpec (T : Type) where
  full_range : T × T
  display : T × T
deriving DecidableEq

/-- `pub fn make_partial_axis<T>(axis_range, part)` translated clause by
clause: the two casts to `f64` (each `?`), the three arithmetic lines, the
two casts back (each `?`), then the construction of the decorator. -/
def make_partial_axis {T : Type} (c : NumCast T) (axis_range : T × T) (part : F × F) :
    Option (PartialAxisSpec T) :=
  match c.toF axis_range.1 with
  | none => none
  | some left =>
    match c.toF axis_range.2 with
    | none => none
    | some right =>
      match c.ofF (full_left left right part.1 part.2) with
      | none => none
      | some fl =>
        match c.ofF (full_right left right part.1 part.2) with
        | none => none
        | some fr => some (PartialAxisSpec.mk (fl, fr) axis_range)

/-- Modelled from the spec: the numeric coordinate a plain rational
interval `a .. b` converts into (the `AsRangedCoord` collaborator of
section 6 together with section 4.1) — a deterministic linear map of the
domain onto the pixel limit, tick generation coordinate-specific and
irrelevant to the claims below, and `range()` reporting the interval the
coordinate was built from. -/
def RangedCoordQ (a b : ℚ) : Ranged ℚ where
  map := fun v limit => limit.1 + ⌊(((limit.2 - limit.1 : ℤ) : ℚ) * ((v - a) / (b - a)))⌋
  key_points := fun _ => []
  range := (a, b)

/-- The largest finite binary64 magnitude, `f64::MAX = 2^1024 - 2^971`. -/
def f64Max : ℚ := 2 ^ 1024 - 2 ^ 971

/-- The binary64 overflow threshold under round-to-nearest-even: an exact
finite result of magnitude at least `2^1024 - 2^970` rounds to a signed
infinity, a smaller one to a finite value. -/
def f64Thresh : ℚ := 2 ^ 1024 - 2 ^ 970

/-- Overflow of an exact finite result — the one effect of binary64
rounding the statements below depend on: magnitudes reaching the threshold
become the signed infinity, smaller results stay exact.  (Rounding of
in-range results is still not modelled; in the statements proved below
every in-range intermediate is either exactly representable in binary64 or
subsequently multiplied by zero, so the conclusions agree with binary64.) -/
def F.round (q : ℚ) : F :=
  if f64Thresh ≤ q then F.inf
  else if q ≤ -f64Thresh then F.ninf
  else F.fin q

/-- `F.add` with binary64 overflow on the finite case. -/
def F.addO (x y : F) : F :=
  match x, y with
  | F.fin a, F.fin b => F.round (a + b)
  | _, _ => F.add x y

/-- `F.sub` with binary64 overflow on the finite case: in IEEE-754,
`finite - finite` can round to a signed infinity (for example
`f64::MAX - (-f64::MAX)`). -/
def F.subO (x y : F) : F :=
  match x, y with
  | F.fin a, F.fin b => F.round (a - b)
  | _, _ => F.sub x y

/-- `F.mul` with binary64 overflow on the finite case. -/
def F.mulO (x y : F) : F :=
  match x, y with
  | F.fin a, F.fin b => F.round (a * b)
  | _, _ => F.mul x y

/-- `F.div` with binary64 overflow on the finite case (a zero divisor is
handled by the special-value rules, not by rounding). -/
def F.divO (x y : F) : F :=
  match x, y with
  | F.fin a, F.fin b => if b = 0 then F.div x y else F.round (a / b)
  | _, _ => F.div x y

/-- `let full_range_size = (right - left) / (part.end - part.start);` in
the overflow-aware arithmetic. -/
def full_range_size_ovf (left right ps pe : F) : F :=
  (right.subO left).divO (pe.subO ps)

/-- `let full_left = left - full_range_size * part.start;` in the
overflow-aware arithmetic. -/
def full_left_ovf (left right ps pe : F) : F :=
  left.subO ((full_range_size_ovf left right ps pe).mulO ps)

/-- `let full_right = right + full_range_size * (1.0 - part.end);` in the
overflow-aware arithmetic. -/
def full_right_ovf (left right ps pe : F) : F :=
  right.addO ((full_range_size_ovf left right ps pe).mulO ((F.fin 1).subO pe))

/-- `pub fn make_partial_axis<T>(axis_range, part)` in the overflow-aware
arithmetic: the same clause-by-clause translation as `make_partial_axis`,
with binary64 overflow of finite results modelled.  A universally
quantified identity over all finite endpoints is decided by whether
`right - left` can overflow, so it is settled against this embedding. -/
def make_partial_axis_ovf {T : Type} (c : NumCast T) (axis_range : T × T) (part : F × F) :
    Option (PartialAxisSpec T) :=
  match c.toF axis_range.1 with
  | none => none
  | some left =>
    match c.toF axis_range.2 with
    | none => none
    | some right =>
      match c.ofF (full_left_ovf left right part.1 part.2) with
      | none => none
      | some fl =>
        match c.ofF (full_right_ovf left right part.1 part.2) with
        | none => none
        | some fr => some (PartialAxisSpec.mk (fl, fr) axis_range)

end Plotters

namespace Plotters

/-- Claim C1: the decorator's `axis_pixel_range(L)` is exactly the normalised
interval `min(C.map(a, L), C.map(b, L)) .. max(C.map(a, L), C.map(b, L))`
where `C` is the inner coordinate and `a .. b` the display interval. -/
theorem C1_axis_pixel_range_normalised {V : Type} (C : Ranged V) (a b : V) (L : ℤ × ℤ) :
    (PartialAxis.mk C (a, b)).axis_pixel_range L =
      (min (C.map a L) (C.map b L), max (C.map a L) (C.map b L)) := rfl

/-- Claim C2: mapping is unaffected by decoration — for every inner
coordinate, display interval, value and pixel limit, the decorator's `map`
agrees with the inner coordinate's `map`. -/
theorem C2_map_forwarded {V : Type} (C : Ranged V) (disp : V × V) (v : V) (L : ℤ × ℤ) :
    (PartialAxis.mk C disp).map v L = C.map v L := rfl

/-- Claim C6: `key_points` and `range` are forwarded verbatim to the inner
coordinate — tick candidates come from the full inner domain and `range`
reports the full inner domain, not the display interval. -/
theorem C6_key_points_range_forwarded {V : Type} (C : Ranged V) (disp : V × V) :
    (∀ n, (PartialAxis.mk C disp).key_points n = C.key_points n) ∧
      (PartialAxis.mk C disp).range = C.range :=
  ⟨fun _ => rfl, rfl⟩

/-- Claim C10: `axis_pixel_range` is symmetric in the display endpoints, and
the pixel interval it returns always has `start ≤ end`. -/
theorem C10_axis_pixel_range_symm {V : Type} (C : Ranged V) (a b : V) (L : ℤ × ℤ) :
    (PartialAxis.mk C (a, b)).axis_pixel_range L =
        (PartialAxis.mk C (b, a)).axis_pixel_range L ∧
      ((PartialAxis.mk C (a, b)).axis_pixel_range L).1 ≤
        ((PartialAxis.mk C (a, b)).axis_pixel_range L).2 := by
  unfold PartialAxis.axis_pixel_range PartialAxis.map
  exact ⟨by simp [min_comm, max_comm], min_le_max⟩

/-- Claim C7: for a discrete inner coordinate, `size`, `index_of` and
`from_index` are forwarded verbatim; consequently, if the inner coordinate
satisfies the round-trip contract then so does the decorated coordinate. -/
theorem C7_discrete_forwarded {V : Type} (d : DiscreteRanged V) (disp : V × V) :
    (PartialAxisDiscrete.mk d disp).size = d.size ∧
      (∀ v, (PartialAxisDiscrete.mk d disp).index_of v = d.index_of v) ∧
      (∀ i, (PartialAxisDiscrete.mk d disp).from_index i = d.from_index i) ∧
      (d.roundTrip → (PartialAxisDiscrete.mk d disp).toDiscreteRanged.roundTrip) :=
  ⟨rfl, fun _ => rfl, fun _ => rfl, fun h => h⟩

/-- Claim C3: with `left`, `right` the float casts of the visible interval's
endpoints and a nonzero-width `part`, `make_partial_axis` computes the full
domain by the three stated formulas and keeps the original visible interval
as the display interval. -/
theorem C3_constructor_formulas (left right ps pe : ℚ) (h : pe - ps ≠ 0) :
    make_partial_axis castF64 (F.fin left, F.fin right) (F.fin ps, F.fin pe) =
      some (PartialAxisSpec.mk
        (F.fin (left - (right - left) / (pe - ps) * ps),
         F.fin (right + (right - left) / (pe - ps) * (1 - pe)))
        (F.fin left, F.fin right)) := by
  simp [make_partial_axis, castF64, full_left, full_right, full_range_size,
    F.sub, F.div, F.mul, F.add, h]

/-- Witness for C3 at visible interval `10 .. 20` and part `1/4 .. 3/4`. -/
theorem C3_constructor_formulas_witness :
    ((3 : ℚ) / 4 - 1 / 4 ≠ 0) ∧
      make_partial_axis castF64 (F.fin 10, F.fin 20) (F.fin (1 / 4), F.fin (3 / 4)) =
        some (PartialAxisSpec.mk
          (F.fin (10 - (20 - 10) / ((3 : ℚ) / 4 - 1 / 4) * (1 / 4)),
           F.fin (20 + (20 - 10) / ((3 : ℚ) / 4 - 1 / 4) * (1 - 3 / 4)))
          (F.fin 10, F.fin 20)) :=
  ⟨by norm_num, C3_constructor_formulas 10 20 (1 / 4) (3 / 4) (by norm_num)⟩

/-- Claim C4, evaluated at the failing input: for a zero-width part, the
division by zero yields `+inf` and the full bounds `-inf` and `+inf`; the
`f64 -> f64` casts accept the infinities, so for a float value type the
function returns `Some` decorator with infinite domain bounds instead of
the `None` the spec requires.  (For a bounded integer value type the cast
back rejects the infinities and the function does return `None`.) -/
theorem C4_zero_width_eval :
    make_partial_axis castF64 (F.fin 10, F.fin 20) (F.fin (1 / 2), F.fin (1 / 2)) =
        some (PartialAxisSpec.mk (F.ninf, F.inf) (F.fin 10, F.fin 20)) ∧
      make_partial_axis castI32 (10, 20) (F.fin (1 / 2), F.fin (1 / 2)) = none := by
  constructor <;>
    norm_num [make_partial_axis, castF64, castI32, full_left, full_right,
      full_range_size, F.sub, F.div, F.mul, F.add]

/-- Counterexample to C5 as stated: for visible interval `10 .. 20` and
fraction `1/4 .. 3/4`, the full domain `make_partial_axis` computes is not
`0 .. 30`. -/
theorem C5_full_domain_counterexample :
    make_partial_axis castF64 (F.fin 10, F.fin 20) (F.fin (1 / 4), F.fin (3 / 4)) ≠
      some (PartialAxisSpec.mk (F.fin 0, F.fin 30) (F.fin 10, F.fin 20)) := by
  norm_num [make_partial_axis, castF64, full_left, full_right, full_range_size,
    F.sub, F.div, F.mul, F.add]

/-- Claim C5 as amended: for visible interval `10 .. 20` and fraction
`1/4 .. 3/4`, `make_partial_axis` computes the full domain `5 .. 25`
(`full_range_size = 10 / (1/2) = 20`, `full_left = 10 - 20/4 = 5`,
`full_right = 20 + 20/4 = 25`), and the decorator built over that domain
reports the axis pixel range `25 .. 75` for pixel limit `(0, 100)`. -/
theorem C5_concrete_scenario :
    make_partial_axis castF64 (F.fin 10, F.fin 20) (F.fin (1 / 4), F.fin (3 / 4)) =
        some (PartialAxisSpec.mk (F.fin 5, F.fin 25) (F.fin 10, F.fin 20)) ∧
      (PartialAxis.mk (RangedCoordQ 5 25) ((10 : ℚ), 20)).axis_pixel_range (0, 100) =
        (25, 75) := by
  constructor
  · norm_num [make_partial_axis, castF64, full_left, full_right, full_range_size,
      F.sub, F.div, F.mul, F.add]
  · norm_num [PartialAxis.axis_pixel_range, PartialAxis.map, RangedCoordQ]

/-- Claim C8: `make_partial_axis` returns `None` exactly when one of its four
casts fails — the cast of either endpoint of `axis_range` to `f64`, or the
cast of `full_left` or of `full_right` back to the value type; no property
of `part` (reversed, negative, out of `[0, 1]` or zero-width) returns
`None` by itself. -/
theorem C8_none_iff_cast_fails {T : Type} (c : NumCast T) (ar : T × T) (part : F × F) :
    make_partial_axis c ar part = none ↔
      c.toF ar.1 = none ∨
        ∃ left, c.toF ar.1 = some left ∧
          (c.toF ar.2 = none ∨
            ∃ right, c.toF ar.2 = some right ∧
              (c.ofF (full_left left right part.1 part.2) = none ∨
                ((∃ fl, c.ofF (full_left left right part.1 part.2) = some fl) ∧
                  c.ofF (full_right left right part.1 part.2) = none))) := by
  unfold make_partial_axis
  rcases h1 : c.toF ar.1 with _ | left
  · simp [h1]
  rcases h2 : c.toF ar.2 with _ | right
  · simp [h1, h2]
  rcases h3 : c.ofF (full_left left right part.1 part.2) with _ | fl
  · simp [h1, h2, h3]
  rcases h4 : c.ofF (full_right left right part.1 part.2) with _ | fr
  · simp [h1, h2, h3, h4]
  · simp [h1, h2, h3, h4]

/-- An exact result strictly inside the overflow threshold stays finite. -/
theorem F.round_eq_fin (q : ℚ) (h1 : q < f64Thresh) (h2 : -f64Thresh < q) :
    F.round q = F.fin q := by
  unfold F.round
  rw [if_neg (not_le.mpr h1), if_neg (not_le.mpr h2)]

/-- Counterexample to C9 as stated: the endpoints `-f64::MAX` and
`f64::MAX` are finite floats, yet with part `0 .. 1` the subtraction
`right - left` overflows to `+inf`, `inf * 0` is NaN, both full bounds are
NaN, and the `f64 -> f64` casts accept them — so the constructor is not an
identity on the domain there. -/
theorem C9_overflow_counterexample :
    make_partial_axis_ovf castF64 (F.fin (-f64Max), F.fin f64Max) (F.fin 0, F.fin 1) ≠
      some (PartialAxisSpec.mk (F.fin (-f64Max), F.fin f64Max)
        (F.fin (-f64Max), F.fin f64Max)) := by
  norm_num [make_partial_axis_ovf, castF64, full_left_ovf, full_right_ovf,
    full_range_size_ovf, F.subO, F.divO, F.mulO, F.addO, F.round, F.sub, F.div,
    F.mul, F.add, f64Max, f64Thresh]
  exact fun hcontra => F.noConfusion hcontra

/-- Claim C9 as amended: for part `0 .. 1` and finite float endpoints whose
difference does not overflow, the constructor is an identity on the
domain — `full_left = left - (right - left)/1 * 0 = left` and
`full_right = right + (right - left)/1 * 0 = right` exactly, so the inner
coordinate is built over the visible interval itself. -/
theorem C9_whole_axis_identity_amended (l r : ℚ) (hl : |l| ≤ f64Max) (hr : |r| ≤ f64Max)
    (h : |r - l| < f64Thresh) :
    make_partial_axis_ovf castF64 (F.fin l, F.fin r) (F.fin 0, F.fin 1) =
      some (PartialAxisSpec.mk (F.fin l, F.fin r) (F.fin l, F.fin r)) := by
  have hMT : f64Max < f64Thresh := by norm_num [f64Max, f64Thresh]
  have h1 := abs_lt.mp h
  have hl1 := abs_le.mp hl
  have hr1 := abs_le.mp hr
  have hsub : (F.fin r).subO (F.fin l) = F.fin (r - l) := by
    simp only [F.subO]
    exact F.round_eq_fin _ h1.2 h1.1
  have hps : (F.fin 1).subO (F.fin 0) = F.fin 1 := by
    simp only [F.subO, sub_zero]
    exact F.round_eq_fin 1 (by norm_num [f64Thresh]) (by norm_num [f64Thresh])
  have hfrs : full_range_size_ovf (F.fin l) (F.fin r) (F.fin 0) (F.fin 1) = F.fin (r - l) := by
    unfold full_range_size_ovf
    rw [hsub, hps]
    simp only [F.divO]
    rw [if_neg (show ¬(1 : ℚ) = 0 by norm_num), div_one]
    exact F.round_eq_fin _ h1.2 h1.1
  have hmul : (F.fin (r - l)).mulO (F.fin 0) = F.fin 0 := by
    simp only [F.mulO, mul_zero]
    exact F.round_eq_fin 0 (by norm_num [f64Thresh]) (by norm_num [f64Thresh])
  have hfl : full_left_ovf (F.fin l) (F.fin r) (F.fin 0) (F.fin 1) = F.fin l := by
    unfold full_left_ovf
    rw [hfrs, hmul]
    simp only [F.subO, sub_zero]
    exact F.round_eq_fin _ (by linarith [hl1.2]) (by linarith [hl1.1])
  have hp1 : (F.fin 1).subO (F.fin 1) = F.fin 0 := by
    simp only [F.subO, sub_self]
    exact F.round_eq_fin 0 (by norm_num [f64Thresh]) (by norm_num [f64Thresh])
  have hfr : full_right_ovf (F.fin l) (F.fin r) (F.fin 0) (F.fin 1) = F.fin r := by
    unfold full_right_ovf
    rw [hp1, hfrs, hmul]
    simp only [F.addO, add_zero]
    exact F.round_eq_fin _ (by linarith [hr1.2]) (by linarith [hr1.1])
  simp [make_partial_axis_ovf, castF64, hfl, hfr]

/-- Witness for the amended C9 at the no-overflow endpoints `10` and `20`. -/
theorem C9_whole_axis_identity_amended_witness :
    (|(10 : ℚ)| ≤ f64Max) ∧ (|(20 : ℚ)| ≤ f64Max) ∧ (|(20 : ℚ) - 10| < f64Thresh) ∧
      make_partial_axis_ovf castF64 (F.fin 10, F.fin 20) (F.fin 0, F.fin 1) =
        some (PartialAxisSpec.mk (F.fin 10, F.fin 20) (F.fin 10, F.fin 20)) :=
  ⟨by norm_num [f64Max], by norm_num [f64Max], by norm_num [f64Thresh],
    C9_whole_axis_identity_amended 10 20 (by norm_num [f64Max]) (by norm_num [f64Max])
      (by norm_num [f64Thresh])⟩

end Plotters
